import Mathlib

/-
  Verification development for the `make-with` capability-composition library
  (src/index.ts).

  The library binds an immutable state value to a table of operations,
  producing a "capability object" whose entries are bound methods.  Tables can
  be tagged chainable (mutation protocol: a bound method validates the new
  state and rebinds) and composable (a later layer wraps the previous
  operation of the same name, receiving it as a trailing continuation).

  Modelling choices:
  * JavaScript runtime values are the inductive `Val`; capability objects are
    `Api` (a method list plus the non-enumerable INTERNAL_STATE reference);
    runtime-constructed functions are defunctionalized as `Closure`, one
    constructor per closure shape occurring in the source.
  * User-written operations are opaque operation codes (a type parameter `κ`)
    whose semantics is an `Interp κ`; an interpretation receives an "apply"
    oracle so user code can invoke values (e.g. continuations) it was passed.
  * The evaluator `applyClosure` is fuel-indexed; every claim is settled at
    sufficient fuel, so the fuel is bookkeeping only.
  * The construction cache (WeakMap keyed by state/table identity) is modelled
    separately at the level of object identities for the memoization claim;
    the behavioural model omits it (it only deduplicates allocations).
-/

/-- Errors. `layered ctx msg cause` models `createError(context, message, cause)`
from src/index.ts (class LayeredError, with a `cause`); `typeError` models a
JavaScript TypeError (e.g. calling a non-function); `userError` stands for an
arbitrary error thrown by user-supplied operation code. -/
inductive Err : Type where
  | typeError : String → Err
  | layered : String → String → Option Err → Err
  | userError : String → Err
  | outOfFuel : Err

/-- The chain of an error together with all its (transitive) causes, outermost
first.  Mirrors walking `error.cause` in JavaScript. -/
def Err.causeChain : Err → List Err
  | .layered c m (some e) => .layered c m (some e) :: e.causeChain
  | e => [e]

/-- Association-list lookup with decidable keys; models JavaScript property
lookup on the plain objects the library builds (`table[key]`, `api[key]`). -/
def alookup {α β : Type} [DecidableEq α] (k : α) : List (α × β) → Option β
  | [] => none
  | (a, b) :: es => if a = k then some b else alookup k es

mutual
/-- JavaScript values as the library observes them: `undefV`/`jsNull`/primitives,
plain data objects (`objV`, used as states), capability objects (`apiV`), and
function values (`closV`). -/
inductive Val (κ : Type) : Type where
  | undefV : Val κ
  | jsNull : Val κ
  | num : Int → Val κ
  | str : String → Val κ
  | boolV : Bool → Val κ
  | objV : List (String × Val κ) → Val κ
  | apiV : Api κ → Val κ
  | closV : Closure κ → Val κ

/-- A capability object: the bound methods plus the internal state reference
(`finalApi[INTERNAL_STATE] = subject`, src/index.ts line 421). -/
inductive Api (κ : Type) : Type where
  | mk : List (String × Closure κ) → Val κ → Api κ

/-- A method value in an operation table: either user-supplied operation code,
or a runtime-built closure (the composable path feeds its rewritten closures
back through `provideTo`, src/index.ts line 916). -/
inductive Mth (κ : Type) : Type where
  | code : κ → Mth κ
  | clos : Closure κ → Mth κ

/-- The runtime-constructed functions of src/index.ts, defunctionalized:
* `boundReader subj key fn` — the non-chainable bound entry
  `(...args) => fn(subject, ...args)` with its catch-wrap (lines 410-416);
* `boundChainable subj entries key fn` — the chainable bound entry that
  validates the new state and rebinds (lines 388-408);
* `composedPre cur key fn prev` — `nextLayer[key]` of the composable layer,
  `(...args) => fn(currentInstance, ...args, smartPreviousMethod)` (877-899);
* `composedPreNoPrev cur key fn` — same with no previous method (900-911);
* `smartPrev cur prev` — `smartPreviousMethod` (879-891);
* `noPrev key` — the continuation that throws `CompositionError` (903-905). -/
inductive Closure (κ : Type) : Type where
  | boundReader : Val κ → String → Mth κ → Closure κ
  | boundChainable : Val κ → List (String × Mth κ) → String → Mth κ → Closure κ
  | composedPre : Api κ → String → Mth κ → Closure κ → Closure κ
  | composedPreNoPrev : Api κ → String → Mth κ → Closure κ
  | smartPrev : Api κ → Closure κ → Closure κ
  | noPrev : String → Closure κ
end

/-- The method list of a capability object. -/
def Api.methods {κ : Type} : Api κ → List (String × Closure κ)
  | .mk ms _ => ms

/-- The internal state reference of a capability object. -/
def Api.internal {κ : Type} : Api κ → Val κ
  | .mk _ i => i

/-- Method lookup on a capability object. -/
def Api.lookup {κ : Type} (a : Api κ) (k : String) : Option (Closure κ) :=
  alookup k a.methods

/-- `IS_CHAINABLE.toString()`: the string form of the chainable marker symbol,
which `validateMethods` and `makeWith` skip as a reserved key (lines 104, 382). -/
def chainableMarker : String := "Symbol(isChainable)"

/-- `IS_COMPOSABLE.toString()`: the string form of the composable marker symbol,
skipped by the composable rewriting loop (line 870). -/
def composableMarker : String := "Symbol(isComposable)"

/-- `typeof v === 'object' && v !== null`: the values accepted as a new state
by the chainable validator (lines 392-402). -/
def isRecordObj {κ : Type} : Val κ → Bool
  | .objV _ => true
  | .apiV _ => true
  | _ => false

/-- The binder at the heart of `makeWith` (lines 380-423): for each method name
(the chainable marker key is skipped) it builds the bound entry — chainable if
the table is tagged — and stores the subject as the internal state. -/
def bindApi {κ : Type} (subject : Val κ) (entries : List (String × Mth κ))
    (chainable : Bool) : Api κ :=
  .mk ((entries.filter (fun p => decide (p.1 ≠ chainableMarker))).map (fun p =>
      (p.1, if chainable then Closure.boundChainable subject entries p.1 p.2
            else Closure.boundReader subject p.1 p.2)))
    subject

/-- Semantics of user operation codes: an interpretation receives an apply
oracle (so user code can call function values passed to it, e.g.
continuations), the subject, and the remaining arguments. -/
def Interp (κ : Type) : Type :=
  κ → (Val κ → List (Val κ) → Except Err (Val κ)) → Val κ → List (Val κ) →
    Except Err (Val κ)

/-- Calling an arbitrary value: functions are applied, anything else raises the
JavaScript TypeError. `rec` is the closure evaluator at the current fuel. -/
def applyValWith {κ : Type}
    (rec : Closure κ → List (Val κ) → Except Err (Val κ)) :
    Val κ → List (Val κ) → Except Err (Val κ) :=
  fun v as =>
    match v with
    | .closV c => rec c as
    | _ => .error (.typeError "value is not a function")

/-- Evaluating a table method `fn(subject, ...args)`: operation codes go to the
interpretation; runtime closures are called with the subject prepended to the
argument list — exactly the JavaScript call `fn(subject, ...args)`. -/
def evalMthWith {κ : Type}
    (rec : Closure κ → List (Val κ) → Except Err (Val κ)) (interp : Interp κ) :
    Mth κ → Val κ → List (Val κ) → Except Err (Val κ) :=
  fun f subj as =>
    match f with
    | .code k => interp k (applyValWith rec) subj as
    | .clos cl => rec cl (subj :: as)

/-- A `try { .. } catch (e) { throw createError(ctx, msg, e) }` boundary. -/
def wrapErr (ctx msg : String) : Except Err (Val κ) → Except Err (Val κ)
  | .ok v => .ok v
  | .error e => .error (.layered ctx msg (some e))

/-- The fuel-indexed evaluator for the defunctionalized closures, each case
translated from the closure it models (see `Closure`):
* bound readers wrap failures as `Method "key" failed`;
* bound chainable entries evaluate the operation, reject `undefined`, `null`
  and non-objects, rebind via `makeWith(newSubject)(functionsMap)`, and wrap
  any failure as `Chainable method "key" failed`;
* `composedPre` calls `fn(currentInstance, ...args, smartPreviousMethod)` and
  wraps failures as `Composed method "key" failed during execution`;
* `smartPrev` calls `previousMethod(currentInstance, ...methodArgs)` with no
  catch and unwraps results carrying INTERNAL_STATE to the bare state;
* `noPrev` throws the no-previous-method composition error. -/
def applyClosure {κ : Type} (interp : Interp κ) :
    Nat → Closure κ → List (Val κ) → Except Err (Val κ)
  | 0, _, _ => .error .outOfFuel
  | n + 1, c, args =>
    let rec0 : Closure κ → List (Val κ) → Except Err (Val κ) :=
      fun c1 as1 => applyClosure interp n c1 as1
    let evalM := evalMthWith rec0 interp
    match c with
    | .boundReader subj key f =>
        wrapErr "makeWith" ("Method failed: " ++ key) (evalM f subj args)
    | .boundChainable subj entries key f =>
        wrapErr "makeWith" ("Chainable method failed: " ++ key)
          (match evalM f subj args with
           | .error e => .error e
           | .ok v =>
             match v with
             | .undefV =>
                 .error (.layered "makeWith"
                   ("Chainable method returned undefined: " ++ key) none)
             | v =>
                 if isRecordObj v then .ok (.apiV (bindApi v entries true))
                 else .error (.layered "makeWith"
                   ("Chainable method returned a non-object: " ++ key) none))
    | .composedPre current key f prev =>
        wrapErr "compose" ("Composed method failed during execution: " ++ key)
          (evalM f (.apiV current)
            (args ++ [.closV (.smartPrev current prev)]))
    | .composedPreNoPrev current key f =>
        wrapErr "compose" ("Composed method failed during execution: " ++ key)
          (evalM f (.apiV current) (args ++ [.closV (.noPrev key)]))
    | .smartPrev current prev =>
        match applyClosure interp n prev (.apiV current :: args) with
        | .error e => .error e
        | .ok r =>
          match r with
          | .apiV a => .ok a.internal
          | r => .ok r
    | .noPrev key =>
        .error (.layered "compose"
          ("No previous method found to compose with: " ++ key) none)

/-- Invoking a named method of a capability object; an absent name is a
JavaScript `api.k is not a function` TypeError. -/
def invokeApi {κ : Type} (interp : Interp κ) (fuel : Nat) (a : Api κ)
    (k : String) (args : List (Val κ)) : Except Err (Val κ) :=
  match a.lookup k with
  | some c => applyClosure interp fuel c args
  | none => .error (.typeError ("not a function: " ++ k))

/-- An operation table as fed to the layered builder: canonical entries plus
the two independent tags carried by `IS_CHAINABLE` / `IS_COMPOSABLE`. -/
structure TableV (κ : Type) : Type where
  entries : List (String × Mth κ)
  chainable : Bool
  composable : Bool

/-- `makeWith(subject)(table)` at the behavioural level (cache-free): bind the
table against the subject. -/
def makeWithV {κ : Type} (subject : Val κ) (t : TableV κ) : Api κ :=
  bindApi subject t.entries t.chainable

/-- The merged capability object built by a layer step,
`Object.assign(Object.create(proto), currentInstance, nextLayer)`
(src/index.ts lines 923-927): later entries win on lookup (modelled by
putting them first), and the internal state reference is the new layer's. -/
def mergeApis {κ : Type} (current nxt : Api κ) : Api κ :=
  .mk (nxt.methods ++ current.methods) nxt.internal

/-- The composable rewriting loop (src/index.ts lines 867-913): skip the
composable marker key; for each operation look up the previous *bound* method
on the current capability object; if found, build the wrapper closure that
injects `smartPreviousMethod`, else the wrapper that injects the throwing
continuation. -/
def composeLayer {κ : Type} (current : Api κ) (entries : List (String × Mth κ)) :
    List (String × Mth κ) :=
  (entries.filter (fun p => decide (p.1 ≠ composableMarker))).map (fun p =>
    (p.1, Mth.clos (match current.lookup p.1 with
      | some prev => Closure.composedPre current p.1 p.2 prev
      | none => Closure.composedPreNoPrev current p.1 p.2)))

/-- One accepted object layer of `makeLayered` (src/index.ts lines 860-929):
a composable table is rewritten by `composeLayer` and then bound — like any
other table — against the current capability object via
`provideTo(currentInstance)(...)`; the result is merged over the current
capability object.  (`validateMethods` cannot throw here: every entry of a
well-formed table is a function, which the `Mth` type enforces.) -/
def layerStepTable {κ : Type} (current : Api κ) (t : TableV κ) : Api κ :=
  let bound :=
    if t.composable then bindApi (.apiV current) (composeLayer current t.entries) false
    else bindApi (.apiV current) t.entries t.chainable
  mergeApis current bound

/-- The layered-builder states: an accumulator closed over the current
capability object, or the finalized capability object returned by the
zero-argument terminal call. -/
inductive BuilderState (κ : Type) : Type where
  | accumulating : Api κ → BuilderState κ
  | finalized : Api κ → BuilderState κ

/-- Applying an object layer inside the accumulator: this path of the source
throws nothing for a well-formed table, so it always succeeds. -/
def tableApply {κ : Type} (a : Api κ) (t : TableV κ) : Except Err (Api κ) :=
  .ok (layerStepTable a t)

/-- The accumulator's step function, translated from `createNextLayer`
(src/index.ts lines 818-934): called with no argument it returns the current
capability object (the terminal call); called with a layer it accumulates.
A finalized value is the plain capability object, not a function, so no step
exists out of the finalized state (`none`). -/
def builderStep {κ : Type} :
    BuilderState κ → Option (TableV κ) → Option (Except Err (BuilderState κ))
  | .finalized _, _ => none
  | .accumulating a, none => some (.ok (.finalized a))
  | .accumulating a, some t => some ((tableApply a t).map .accumulating)

/- ~~~~~ Construction cache (getCachedApi, src/index.ts lines 144-167) ~~~~~

The cache is about object identity, so it is modelled at the level of
identities: states, tables and capability objects are numbered, and building
an api allocates a fresh identity.  `API_CACHE` is a WeakMap keyed by the
subject holding a WeakMap keyed by the table; single-threaded, the
double-checked re-lookup of the source collapses to lookup-then-insert. -/

/-- The two-level cache (outer key: state identity, inner key: table identity,
value: capability-object identity) plus the fresh-identity counter. -/
structure CacheState : Type where
  outer : List (Nat × List (Nat × Nat))
  nextId : Nat

/-- Cache lookup: outer by state identity, inner by table identity. -/
def cacheLookup (st : CacheState) (sid tid : Nat) : Option Nat :=
  match alookup sid st.outer with
  | none => none
  | some inner => alookup tid inner

/-- `getCachedApi(subject, functionsMap, factory)` at the identity level: on a
miss the factory allocates a fresh capability object (a fresh identity) and
the pair is inserted; on a hit the cached identity is returned unchanged. -/
def getCachedApiM (sid tid : Nat) (st : CacheState) : Nat × CacheState :=
  match alookup sid st.outer with
  | none =>
      (st.nextId, ⟨(sid, [(tid, st.nextId)]) :: st.outer, st.nextId + 1⟩)
  | some inner =>
      match alookup tid inner with
      | none =>
          (st.nextId, ⟨(sid, (tid, st.nextId) :: inner) :: st.outer, st.nextId + 1⟩)
      | some api => (api, st)

/-- `makeWith(subject)(functionsMap)` at the identity level: construction is
routed through the cache (src/index.ts line 376). -/
def makeWithM (sid tid : Nat) (st : CacheState) : Nat × CacheState :=
  getCachedApiM sid tid st

/-- The body of a bound chainable method at the identity level: once the
operation has produced its new state (identity `newSid`), the method returns
`makeWith(newSubject)(functionsMap)` (src/index.ts line 404). -/
def invokeChainableM (newSid tid : Nat) (st : CacheState) : Nat × CacheState :=
  makeWithM newSid tid st

/- ~~~~~ Operation normalizer `make` (src/index.ts lines 247-291) ~~~~~ -/

/-- A property value of a plain JavaScript object as `make` distinguishes
them: a function (with its `name`, relevant in array form), or anything else. -/
inductive JsProp : Type where
  | fn : String → JsProp
  | notFn : JsProp
deriving DecidableEq

/-- An argument to `make`: a function (with its `name`), a non-null non-array
object, an array, `null`, or another primitive. -/
inductive JsArg : Type where
  | fnArg : String → JsArg
  | objArg : List (String × JsProp) → JsArg
  | arrArg : JsArg
  | nullArg : JsArg
  | primArg : JsArg
deriving DecidableEq

/-- `validateMethods` (src/index.ts lines 98-114): every value must be a
function, except under the reserved chainable-marker key, which is skipped
(line 104).  (The `VALIDATION_CACHE` memoizes revalidation of already-accepted
tables and is omitted: it never changes the outcome for an object validated
the first time.) -/
def validateMethodsM : List (String × JsProp) → Except Err Unit
  | [] => .ok ()
  | (k, v) :: rest =>
      if k = chainableMarker then validateMethodsM rest
      else
        match v with
        | .fn _ => validateMethodsM rest
        | .notFn => .error (.typeError ("Invalid method, expected function: " ++ k))

/-- `!fn.name || fn.name.trim() === ''`: the name is empty or consists only
of whitespace.  (Stated over the character list, which is what `trim`
removing all characters means.) -/
def isBlankName (s : String) : Bool := s.data.all Char.isWhitespace

/-- The array-form loop of `make` (lines 268-288): per element, reject
non-functions, then blank names (`!fn.name || fn.name.trim() === ''`), then
duplicates, else record the function under its name. -/
def makeArrayM : List JsArg → List String → List (String × JsProp) →
    Except Err (List (String × JsProp))
  | [], _, acc => .ok acc.reverse
  | a :: rest, seen, acc =>
      match a with
      | .fnArg name =>
          if isBlankName name then
            .error (.layered "make" "Function must have a non-empty name" none)
          else if name ∈ seen then
            .error (.layered "make" ("Duplicate function name: " ++ name) none)
          else makeArrayM rest (name :: seen) ((name, .fn name) :: acc)
      | _ => .error (.layered "make" "Argument must be a function" none)

/-- `make(...fnsOrObj)` (lines 247-291): no arguments is an error; a single
non-null, non-array object argument is validated and returned as the table;
otherwise the arguments are treated as an array of named functions. -/
def makeM : List JsArg → Except Err (List (String × JsProp))
  | [] => .error (.layered "make" "At least one argument must be provided" none)
  | [JsArg.objArg entries] =>
      match validateMethodsM entries with
      | .error e => .error (.layered "make" "Object validation failed" (some e))
      | .ok _ => .ok entries
  | args => makeArrayM args [] []

/-- Does a `make` argument list take the single-object path? -/
def isObjectForm : List JsArg → Bool
  | [JsArg.objArg _] => true
  | _ => false

/-- The function names occurring in an array-form argument list. -/
def argNames (args : List JsArg) : List String :=
  args.filterMap (fun a => match a with | .fnArg n => some n | _ => none)

/-- The canonical table built from an array-form argument list. -/
def argTable (args : List JsArg) : List (String × JsProp) :=
  args.filterMap (fun a =>
    match a with | .fnArg n => some (n, JsProp.fn n) | _ => none)

/- ~~~~~ Function layers (makeLayered, src/index.ts lines 832-858) ~~~~~ -/

/-- What a reflective layer function may return: a plain object (its
properties) or anything else (`null`, primitives, ...). -/
inductive RawReturn : Type where
  | obj : List (String × JsProp) → RawReturn
  | nonObject : RawReturn

/-- The shape `make`-layer detection sees of a reflective layer function: its
declared parameter count (`value.length`), whether its source shows a rest
parameter, and its body (which may itself throw). -/
structure LayerFn (A : Type) : Type where
  declaredParams : Nat
  hasRest : Bool
  body : A → Except Err RawReturn

/-- `isLayerFunction` (src/index.ts lines 120-128) for a value already known
to be a function: declared arity exactly 1, or a rest-parameter signature
(`length === 0` with `'...'` in the source). -/
def isUnaryLayer {A : Type} (f : LayerFn A) : Bool :=
  f.declaredParams == 1 || (f.declaredParams == 0 && f.hasRest)

/-- The accumulator's handling of a function layer (src/index.ts lines
826-858): inside the try — reject non-unary functions, call the function with
the current capability object, reject non-object returns, validate the
returned methods — with the whole step's catch wrapping any failure as
`Layer creation failed`.  On success the validated entries are the table
bound for this layer. -/
def acceptFunctionLayer {A : Type} (current : A) (f : LayerFn A) :
    Except Err (List (String × JsProp)) :=
  let inner : Except Err (List (String × JsProp)) :=
    if !isUnaryLayer f then
      .error (.layered "makeLayered"
        "Layer function must accept exactly one parameter" none)
    else
      match f.body current with
      | .error e => .error e
      | .ok .nonObject =>
          .error (.layered "makeLayered"
            "Layer function must return an object of methods" none)
      | .ok (.obj entries) =>
          match validateMethodsM entries with
          | .error e => .error e
          | .ok _ => .ok entries
  match inner with
  | .ok v => .ok v
  | .error e => .error (.layered "makeLayered" "Layer creation failed" (some e))

/- ~~~~~ Concrete operations for the worked examples of the claims ~~~~~ -/

/-- Concrete user operation codes used by the claims' worked examples:
the spec's `increment`/`add` mutators, a composed `add` written in the
documented style `(s, n, prevAdd) => prevAdd(s, n)`, readers, a constant
non-object return, a throwing operation, and a composed wrapper that calls
its trailing continuation. -/
inductive OpC : Type where
  | increment
  | add
  | addComposed
  | getCount
  | getA
  | getB
  | retNum
  | boomWith : Err → OpC
  | boomComposed

/-- Property access `v[k]` on a plain data object (absent keys: `undefined`). -/
def getField {κ : Type} (v : Val κ) (k : String) : Val κ :=
  match v with
  | .objV fs => (alookup k fs).getD .undefV
  | _ => .undefV

/-- Numeric view of a value (the worked examples only apply it to numbers). -/
def asNum {κ : Type} : Val κ → Int
  | .num n => n
  | _ => 0

/-- Semantics of the concrete operation codes.
`increment`: `(s) => ({count: s.count + 1})`;
`add`: `(s, n) => ({count: s.count + n})`;
`addComposed`: `(s, n, prevAdd) => prevAdd(s, n)` — the composed-over-mutator
wrapper of the spec's composition scenario, written exactly as in the
`compose` documentation of src/index.ts, calling its continuation and
returning its result unchanged;
`getCount`: `(s) => s.count`; `getA`/`getB`: constant readers;
`retNum`: `(s) => 42`; `boomWith e`: `(s) => { throw e }`;
`boomComposed`: `(...all) => all[all.length - 1]()` — calls the trailing
continuation it receives. -/
def interpC : Interp OpC := fun c applyV subj args =>
  match c with
  | .increment =>
      .ok (.objV [("count", .num (asNum (getField subj "count") + 1))])
  | .add =>
      .ok (.objV [("count",
        .num (asNum (getField subj "count") + asNum (args.getD 0 .undefV)))])
  | .addComposed => applyV (args.getD 1 .undefV) [subj, args.getD 0 .undefV]
  | .getCount => .ok (getField subj "count")
  | .getA => .ok (.str "A")
  | .getB => .ok (.str "B")
  | .retNum => .ok (.num 42)
  | .boomWith e => .error e
  | .boomComposed => applyV (args.getLastD .undefV) []

/- ~~~~~ Supporting lemmas ~~~~~ -/

theorem alookup_nil {α β : Type} [DecidableEq α] (k : α) :
    alookup k ([] : List (α × β)) = none := rfl

theorem alookup_cons {α β : Type} [DecidableEq α] (k a : α) (b : β)
    (es : List (α × β)) :
    alookup k ((a, b) :: es) = if a = k then some b else alookup k es := rfl

theorem alookup_append_some {α β : Type} [DecidableEq α] {k : α}
    {l₁ : List (α × β)} (l₂ : List (α × β)) {c : β}
    (h : alookup k l₁ = some c) : alookup k (l₁ ++ l₂) = some c := by
  induction l₁ with
  | nil => simp [alookup] at h
  | cons p rest ih =>
      obtain ⟨a, b⟩ := p
      by_cases ha : a = k
      · simp [alookup, ha] at h ⊢; exact h
      · simp [alookup, ha] at h ⊢; exact ih h

theorem alookup_append_none {α β : Type} [DecidableEq α] {k : α}
    {l₁ : List (α × β)} (l₂ : List (α × β))
    (h : alookup k l₁ = none) : alookup k (l₁ ++ l₂) = alookup k l₂ := by
  induction l₁ with
  | nil => simp
  | cons p rest ih =>
      obtain ⟨a, b⟩ := p
      by_cases ha : a = k
      · simp [alookup, ha] at h
      · simp [alookup, ha] at h ⊢; exact ih h

/-- Lookup through the filter-then-rebuild pattern shared by `bindApi` and
`composeLayer`: entries under the reserved marker key `m` disappear, every
other key is rebuilt by `h`. -/
theorem alookup_filter_map {α β γ : Type} [DecidableEq α] (m : α)
    (h : α → β → γ) (l : List (α × β)) (k : α) :
    alookup k ((l.filter (fun p => decide (p.1 ≠ m))).map
        (fun p => (p.1, h p.1 p.2))) =
      if k = m then none else (alookup k l).map (h k) := by
  induction l with
  | nil => simp [alookup]
  | cons p rest ih =>
      obtain ⟨a, b⟩ := p
      by_cases hm : a = m
      · rw [show List.filter (fun p => decide (p.1 ≠ m)) ((a, b) :: rest) =
              List.filter (fun p => decide (p.1 ≠ m)) rest from by
            simp [List.filter_cons, hm]]
        rw [ih]
        by_cases hkm : k = m
        · simp [hkm]
        · have hak : a ≠ k := fun hh => hkm (hh ▸ hm)
          simp [hkm, alookup_cons, if_neg hak]
      · rw [show List.filter (fun p => decide (p.1 ≠ m)) ((a, b) :: rest) =
              (a, b) :: List.filter (fun p => decide (p.1 ≠ m)) rest from by
            simp [List.filter_cons, hm]]
        by_cases hak : a = k
        · subst hak
          simp [alookup_cons, hm]
        · simp only [List.map_cons, alookup_cons, if_neg hak]
          exact ih

/-- Method lookup on a freshly bound capability object. -/
theorem bindApi_lookup {κ : Type} (s : Val κ) (entries : List (String × Mth κ))
    (ch : Bool) (k : String) :
    (bindApi s entries ch).lookup k =
      if k = chainableMarker then none
      else (alookup k entries).map (fun f =>
        if ch then Closure.boundChainable s entries k f
        else Closure.boundReader s k f) := by
  simpa [bindApi, Api.lookup, Api.methods] using
    alookup_filter_map chainableMarker
      (fun key f => if ch then Closure.boundChainable s entries key f
                    else Closure.boundReader s key f) entries k

/-- Method lookup on the rewritten table built by the composable path. -/
theorem composeLayer_lookup {κ : Type} (cur : Api κ)
    (entries : List (String × Mth κ)) (k : String) :
    alookup k (composeLayer cur entries) =
      if k = composableMarker then none
      else (alookup k entries).map (fun f =>
        Mth.clos (match cur.lookup k with
          | some prev => Closure.composedPre cur k f prev
          | none => Closure.composedPreNoPrev cur k f)) := by
  simpa [composeLayer] using
    alookup_filter_map composableMarker
      (fun key f => Mth.clos (match cur.lookup key with
        | some prev => Closure.composedPre cur key f prev
        | none => Closure.composedPreNoPrev cur key f)) entries k

/-- Lookup on a merged capability object: the new layer's entries win. -/
theorem mergeApis_lookup {κ : Type} (cur nxt : Api κ) (k : String) :
    (mergeApis cur nxt).lookup k =
      match nxt.lookup k with
      | some c => some c
      | none => cur.lookup k := by
  unfold mergeApis Api.lookup
  cases h : alookup k nxt.methods with
  | some c => simpa [Api.methods] using alookup_append_some cur.methods h
  | none => simpa [Api.methods] using alookup_append_none cur.methods h

theorem except_error_iff_not_ok {α : Type} (x : Except Err α) :
    (∃ e, x = .error e) ↔ ¬(∃ a, x = .ok a) := by
  cases x <;> simp

/-- `validateMethods` succeeds exactly when every value under a non-reserved
key is a function. -/
theorem validateMethodsM_ok_iff (l : List (String × JsProp)) :
    validateMethodsM l = .ok () ↔
      ∀ p ∈ l, p.1 ≠ chainableMarker → p.2 ≠ JsProp.notFn := by
  induction l with
  | nil => simp [validateMethodsM]
  | cons p rest ih =>
      obtain ⟨k, v⟩ := p
      by_cases hk : k = chainableMarker
      · rw [show validateMethodsM ((k, v) :: rest) = validateMethodsM rest from by
            simp [validateMethodsM, hk]]
        rw [ih]
        constructor
        · intro h q hq hqm
          rcases List.mem_cons.mp hq with rfl | hq2
          · exact absurd hk hqm
          · exact h q hq2 hqm
        · intro h q hq hqm; exact h q (List.mem_cons_of_mem _ hq) hqm
      · cases v with
        | fn nm =>
            rw [show validateMethodsM ((k, JsProp.fn nm) :: rest) =
                  validateMethodsM rest from by simp [validateMethodsM, hk]]
            rw [ih]
            constructor
            · intro h q hq hqm
              rcases List.mem_cons.mp hq with rfl | hq2
              · simp
              · exact h q hq2 hqm
            · intro h q hq hqm; exact h q (List.mem_cons_of_mem _ hq) hqm
        | notFn =>
            rw [show validateMethodsM ((k, JsProp.notFn) :: rest) =
                  Except.error (.typeError
                    ("Invalid method, expected function: " ++ k)) from by
                  simp [validateMethodsM, hk]]
            constructor
            · intro h; exact Except.noConfusion h
            · intro h
              exact absurd rfl (h (k, JsProp.notFn) (List.mem_cons_self _ _) hk)

theorem argNames_nil : argNames [] = [] := rfl

theorem argNames_cons_fn (n : String) (l : List JsArg) :
    argNames (JsArg.fnArg n :: l) = n :: argNames l := rfl

theorem argTable_cons_fn (n : String) (l : List JsArg) :
    argTable (JsArg.fnArg n :: l) = (n, JsProp.fn n) :: argTable l := rfl

/-- The array-form loop succeeds exactly when every argument is a function,
no name is blank, the names are pairwise distinct, and none collides with an
already-seen name. -/
theorem makeArrayM_ok_iff (l : List JsArg) : ∀ (seen : List String)
    (acc : List (String × JsProp)),
    (∃ r, makeArrayM l seen acc = .ok r) ↔
      ((∀ a ∈ l, ∃ n, a = JsArg.fnArg n) ∧
       (∀ n, JsArg.fnArg n ∈ l → isBlankName n = false) ∧
       (argNames l).Nodup ∧
       (∀ n ∈ argNames l, n ∉ seen)) := by
  induction l with
  | nil =>
      intro seen acc
      simp [makeArrayM, argNames]
  | cons a rest ih =>
      intro seen acc
      cases a with
      | fnArg name =>
          by_cases hb : isBlankName name = true
          · rw [show makeArrayM (JsArg.fnArg name :: rest) seen acc =
                  Except.error (.layered "make"
                    "Function must have a non-empty name" none) from by
                simp [makeArrayM, hb]]
            constructor
            · rintro ⟨r, hr⟩; exact Except.noConfusion hr
            · rintro ⟨-, h2, -, -⟩
              simp [h2 name (List.mem_cons_self _ _)] at hb
          · by_cases hs : name ∈ seen
            · rw [show makeArrayM (JsArg.fnArg name :: rest) seen acc =
                    Except.error (.layered "make"
                      ("Duplicate function name: " ++ name) none) from by
                  simp [makeArrayM, hb, hs]]
              constructor
              · rintro ⟨r, hr⟩; exact Except.noConfusion hr
              · rintro ⟨-, -, -, h4⟩
                exact absurd hs (h4 name (by
                  rw [argNames_cons_fn]; exact List.mem_cons_self _ _))
            · rw [show makeArrayM (JsArg.fnArg name :: rest) seen acc =
                    makeArrayM rest (name :: seen)
                      ((name, JsProp.fn name) :: acc) from by
                  simp [makeArrayM, hb, hs]]
              rw [ih (name :: seen) ((name, JsProp.fn name) :: acc)]
              rw [argNames_cons_fn]
              constructor
              · rintro ⟨h1, h2, h3, h4⟩
                refine ⟨?_, ?_, ?_, ?_⟩
                · intro x hx
                  rcases List.mem_cons.mp hx with rfl | hx2
                  · exact ⟨name, rfl⟩
                  · exact h1 x hx2
                · intro n hn
                  rcases List.mem_cons.mp hn with hn1 | hn2
                  · obtain rfl := JsArg.fnArg.inj hn1
                    simpa using hb
                  · exact h2 n hn2
                · refine List.nodup_cons.mpr ⟨?_, h3⟩
                  intro hmem
                  exact (h4 name hmem) (List.mem_cons_self name seen)
                · intro n hn
                  rcases List.mem_cons.mp hn with rfl | hn2
                  · exact hs
                  · exact fun hcontra => (h4 n hn2) (List.mem_cons_of_mem _ hcontra)
              · rintro ⟨h1, h2, h3, h4⟩
                have h3x := List.nodup_cons.mp h3
                refine ⟨?_, ?_, h3x.2, ?_⟩
                · intro x hx; exact h1 x (List.mem_cons_of_mem _ hx)
                · intro n hn; exact h2 n (List.mem_cons_of_mem _ hn)
                · intro n hn hmem
                  rcases List.mem_cons.mp hmem with rfl | hseen
                  · exact h3x.1 hn
                  · exact (h4 n (List.mem_cons_of_mem _ hn)) hseen
      | objArg es =>
          rw [show makeArrayM (JsArg.objArg es :: rest) seen acc =
                Except.error (.layered "make" "Argument must be a function" none)
                from rfl]
          constructor
          · rintro ⟨r, hr⟩; exact Except.noConfusion hr
          · rintro ⟨h1, -, -, -⟩
            obtain ⟨n, hn⟩ := h1 _ (List.mem_cons_self _ _)
            exact JsArg.noConfusion hn
      | arrArg =>
          rw [show makeArrayM (JsArg.arrArg :: rest) seen acc =
                Except.error (.layered "make" "Argument must be a function" none)
                from rfl]
          constructor
          · rintro ⟨r, hr⟩; exact Except.noConfusion hr
          · rintro ⟨h1, -, -, -⟩
            obtain ⟨n, hn⟩ := h1 _ (List.mem_cons_self _ _)
            exact JsArg.noConfusion hn
      | nullArg =>
          rw [show makeArrayM (JsArg.nullArg :: rest) seen acc =
                Except.error (.layered "make" "Argument must be a function" none)
                from rfl]
          constructor
          · rintro ⟨r, hr⟩; exact Except.noConfusion hr
          · rintro ⟨h1, -, -, -⟩
            obtain ⟨n, hn⟩ := h1 _ (List.mem_cons_self _ _)
            exact JsArg.noConfusion hn
      | primArg =>
          rw [show makeArrayM (JsArg.primArg :: rest) seen acc =
                Except.error (.layered "make" "Argument must be a function" none)
                from rfl]
          constructor
          · rintro ⟨r, hr⟩; exact Except.noConfusion hr
          · rintro ⟨h1, -, -, -⟩
            obtain ⟨n, hn⟩ := h1 _ (List.mem_cons_self _ _)
            exact JsArg.noConfusion hn

/-- On success the array-form loop returns the accumulated entries followed by
the table of the remaining named functions. -/
theorem makeArrayM_ok_val (l : List JsArg) : ∀ (seen : List String)
    (acc : List (String × JsProp)) (r : List (String × JsProp)),
    makeArrayM l seen acc = .ok r → r = acc.reverse ++ argTable l := by
  induction l with
  | nil =>
      intro seen acc r h
      simp only [makeArrayM] at h
      cases h
      simp [argTable]
  | cons a rest ih =>
      intro seen acc r h
      cases a with
      | fnArg name =>
          by_cases hb : isBlankName name = true
          · simp [makeArrayM, hb] at h
          · by_cases hs : name ∈ seen
            · simp [makeArrayM, hb, hs] at h
            · rw [show makeArrayM (JsArg.fnArg name :: rest) seen acc =
                    makeArrayM rest (name :: seen)
                      ((name, JsProp.fn name) :: acc) from by
                  simp [makeArrayM, hb, hs]] at h
              rw [ih _ _ _ h, argTable_cons_fn]
              simp
      | objArg es => exact absurd h (by simp [makeArrayM])
      | arrArg => exact absurd h (by simp [makeArrayM])
      | nullArg => exact absurd h (by simp [makeArrayM])
      | primArg => exact absurd h (by simp [makeArrayM])

/- ~~~~~ Evaluator unfolding lemmas ~~~~~ -/

theorem applyClosure_boundReader {κ : Type} (interp : Interp κ) (n : Nat)
    (subj : Val κ) (key : String) (f : Mth κ) (args : List (Val κ)) :
    applyClosure interp (n + 1) (.boundReader subj key f) args =
      wrapErr "makeWith" ("Method failed: " ++ key)
        (evalMthWith (fun c1 as1 => applyClosure interp n c1 as1) interp
          f subj args) := rfl

theorem applyClosure_boundChainable {κ : Type} (interp : Interp κ) (n : Nat)
    (subj : Val κ) (entries : List (String × Mth κ)) (key : String) (f : Mth κ)
    (args : List (Val κ)) :
    applyClosure interp (n + 1) (.boundChainable subj entries key f) args =
      wrapErr "makeWith" ("Chainable method failed: " ++ key)
        (match evalMthWith (fun c1 as1 => applyClosure interp n c1 as1) interp
            f subj args with
         | .error e => .error e
         | .ok v =>
           match v with
           | .undefV =>
               .error (.layered "makeWith"
                 ("Chainable method returned undefined: " ++ key) none)
           | v =>
               if isRecordObj v then .ok (.apiV (bindApi v entries true))
               else .error (.layered "makeWith"
                 ("Chainable method returned a non-object: " ++ key) none)) := rfl

theorem applyClosure_composedPre {κ : Type} (interp : Interp κ) (n : Nat)
    (current : Api κ) (key : String) (f : Mth κ) (prev : Closure κ)
    (args : List (Val κ)) :
    applyClosure interp (n + 1) (.composedPre current key f prev) args =
      wrapErr "compose" ("Composed method failed during execution: " ++ key)
        (evalMthWith (fun c1 as1 => applyClosure interp n c1 as1) interp
          f (.apiV current) (args ++ [.closV (.smartPrev current prev)])) := rfl

theorem applyClosure_composedPreNoPrev {κ : Type} (interp : Interp κ) (n : Nat)
    (current : Api κ) (key : String) (f : Mth κ) (args : List (Val κ)) :
    applyClosure interp (n + 1) (.composedPreNoPrev current key f) args =
      wrapErr "compose" ("Composed method failed during execution: " ++ key)
        (evalMthWith (fun c1 as1 => applyClosure interp n c1 as1) interp
          f (.apiV current) (args ++ [.closV (.noPrev key)])) := rfl

theorem applyClosure_smartPrev {κ : Type} (interp : Interp κ) (n : Nat)
    (current : Api κ) (prev : Closure κ) (args : List (Val κ)) :
    applyClosure interp (n + 1) (.smartPrev current prev) args =
      match applyClosure interp n prev (.apiV current :: args) with
      | .error e => .error e
      | .ok r =>
        match r with
        | .apiV a => .ok a.internal
        | r => .ok r := rfl

theorem applyClosure_noPrev {κ : Type} (interp : Interp κ) (n : Nat)
    (key : String) (args : List (Val κ)) :
    applyClosure interp (n + 1) (.noPrev key) args =
      .error (.layered "compose"
        ("No previous method found to compose with: " ++ key) none) := rfl

/- ~~~~~ Concrete states and tables for the worked examples ~~~~~ -/

/-- The state `{count: 0}`. -/
def st0 : Val OpC := .objV [("count", .num 0)]

/-- The state `{count: 1}`. -/
def st1 : Val OpC := .objV [("count", .num 1)]

/-- The state `{count: 2}`. -/
def st2 : Val OpC := .objV [("count", .num 2)]

/-- The chainable table `makeChainable({increment: s => ({count: s.count+1})})`. -/
def incrEntries : List (String × Mth OpC) := [("increment", Mth.code OpC.increment)]

/-- `makeWith({count:0})(incrEntries)`. -/
def capIncr0 : Api OpC := bindApi st0 incrEntries true

/-- `makeWith({count:1})(incrEntries)`. -/
def capIncr1 : Api OpC := bindApi st1 incrEntries true

/-- `makeWith({count:2})(incrEntries)`. -/
def capIncr2 : Api OpC := bindApi st2 incrEntries true

/- ~~~~~ Claims ~~~~~ -/

/-- Claim C1: for every state `s`, every mutation-tagged table and every
method name `k` in it, invoking the bound entry `k` with arguments `a`
computes `n = t[k](s, ...a)` and — when `n` is a record — returns
`makeWith(n)(t)`, a capability object bound to `n` with the same table
(first conjunct).  In particular, with the chainable `increment` table bound
to `{count: 0}`, calling the bound `increment` twice yields a capability
whose bound state reads `count = 2`, while the original capability object
still reads `count = 0` (the binder never modifies the bound state; the
original pair is untouched). -/
theorem claim_C1 :
    (∀ (κ : Type) (interp : Interp κ) (entries : List (String × Mth κ))
       (k : String) (f : Mth κ) (s : Val κ) (args : List (Val κ))
       (nFields : List (String × Val κ)) (fuel : Nat),
       alookup k entries = some f →
       k ≠ chainableMarker →
       (∀ rec, evalMthWith rec interp f s args = .ok (.objV nFields)) →
       invokeApi interp (fuel + 1) (bindApi s entries true) k args =
         .ok (.apiV (bindApi (.objV nFields) entries true)))
    ∧ invokeApi interpC 3 capIncr0 "increment" [] = .ok (.apiV capIncr1)
    ∧ invokeApi interpC 3 capIncr1 "increment" [] = .ok (.apiV capIncr2)
    ∧ getField capIncr2.internal "count" = .num 2
    ∧ getField capIncr0.internal "count" = .num 0 := by
  refine ⟨?_, rfl, rfl, rfl, rfl⟩
  intro κ interp entries k f s args nFields fuel hlook hmark hf
  unfold invokeApi
  rw [bindApi_lookup, if_neg hmark, hlook]
  show applyClosure interp (fuel + 1) (.boundChainable s entries k f) args = _
  rw [applyClosure_boundChainable, hf]
  rfl

/-- Claim C1 witness: the general conjunct instantiated at the concrete
`increment` table and state `{count: 0}`. -/
theorem claim_C1_witness :
    invokeApi interpC 1 (bindApi st0 incrEntries true) "increment" [] =
      .ok (.apiV (bindApi (.objV [("count", .num 1)]) incrEntries true)) :=
  claim_C1.1 OpC interpC incrEntries "increment" (Mth.code OpC.increment)
    st0 [] [("count", .num 1)] 0 rfl (by decide) (fun _ => rfl)

/-- Claim C2: if the underlying operation of a bound chainable method returns
`undefined`, `null`, or any non-record value, that invocation of the bound
method throws (first conjunct: the observed error is the `Chainable method
failed` wrapper around the contract-violation error).  The violation is
surfaced only at invocation time: binding itself succeeds — `bindApi` builds
the capability object without evaluating any operation (its signature takes
no interpretation at all), and the offending method is present and bound
(second conjunct). -/
theorem claim_C2 :
    (∀ (κ : Type) (interp : Interp κ) (entries : List (String × Mth κ))
       (k : String) (f : Mth κ) (s : Val κ) (args : List (Val κ))
       (v : Val κ) (fuel : Nat),
       alookup k entries = some f →
       k ≠ chainableMarker →
       (∀ rec, evalMthWith rec interp f s args = .ok v) →
       isRecordObj v = false →
       ∃ inner, invokeApi interp (fuel + 1) (bindApi s entries true) k args =
         .error (.layered "makeWith" ("Chainable method failed: " ++ k)
           (some inner)))
    ∧ (∀ (κ : Type) (s : Val κ) (entries : List (String × Mth κ))
       (k : String) (f : Mth κ),
       alookup k entries = some f →
       k ≠ chainableMarker →
       (bindApi s entries true).lookup k =
         some (.boundChainable s entries k f)) := by
  constructor
  · intro κ interp entries k f s args v fuel hlook hmark hf hv
    unfold invokeApi
    rw [bindApi_lookup, if_neg hmark, hlook]
    show ∃ inner, applyClosure interp (fuel + 1)
      (.boundChainable s entries k f) args = _
    rw [applyClosure_boundChainable, hf]
    cases v with
    | undefV =>
        exact ⟨_, rfl⟩
    | jsNull => exact ⟨_, rfl⟩
    | num m => exact ⟨_, rfl⟩
    | str t => exact ⟨_, rfl⟩
    | boolV b => exact ⟨_, rfl⟩
    | objV fs => simp [isRecordObj] at hv
    | apiV a => simp [isRecordObj] at hv
    | closV c => exact ⟨_, rfl⟩
  · intro κ s entries k f hlook hmark
    rw [bindApi_lookup, if_neg hmark, hlook]
    rfl

/-- Claim C2 witness: the operation `retNum` returns `42`; invoking the bound
chainable `save` throws the wrapped contract-violation error, while the
offending method was bound without error. -/
theorem claim_C2_witness :
    (∃ inner, invokeApi interpC 1
        (bindApi st0 [("save", Mth.code OpC.retNum)] true) "save" [] =
      .error (.layered "makeWith" ("Chainable method failed: " ++ "save")
        (some inner)))
    ∧ (bindApi st0 [("save", Mth.code OpC.retNum)] true).lookup "save" =
        some (.boundChainable st0 [("save", Mth.code OpC.retNum)] "save"
          (Mth.code OpC.retNum)) :=
  ⟨claim_C2.1 OpC interpC [("save", Mth.code OpC.retNum)] "save"
      (Mth.code OpC.retNum) st0 [] (.num 42) 0 rfl (by decide)
      (fun _ => rfl) rfl,
   claim_C2.2 OpC st0 [("save", Mth.code OpC.retNum)] "save"
      (Mth.code OpC.retNum) rfl (by decide)⟩

theorem evalMthWith_code {κ : Type}
    (rec : Closure κ → List (Val κ) → Except Err (Val κ)) (interp : Interp κ)
    (c : κ) (subj : Val κ) (as : List (Val κ)) :
    evalMthWith rec interp (.code c) subj as =
      interp c (applyValWith rec) subj as := rfl

theorem evalMthWith_clos {κ : Type}
    (rec : Closure κ → List (Val κ) → Except Err (Val κ)) (interp : Interp κ)
    (cl : Closure κ) (subj : Val κ) (as : List (Val κ)) :
    evalMthWith rec interp (.clos cl) subj as = rec cl (subj :: as) := rfl

/-- The chainable base table `makeChainable({add: (s, n) => ({count: s.count + n})})`. -/
def addEntries : List (String × Mth OpC) := [("add", Mth.code OpC.add)]

/-- `makeWith({count:0})(addEntries)` — the uncomposed capability object. -/
def capAdd0 : Api OpC := bindApi st0 addEntries true

/-- The composable layer `compose({add: (s, n, prevAdd) => prevAdd(s, n)})`:
the composed `add` simply calls its continuation and returns its result
unchanged, written in the calling convention of the `compose` documentation
in src/index.ts. -/
def composedAddTable : TableV OpC :=
  ⟨[("add", Mth.code OpC.addComposed)], false, true⟩

/-- `makeLayered({count:0})(addEntries)(composedAddTable)()`. -/
def capComposedAdd : Api OpC := layerStepTable capAdd0 composedAddTable

/-- Claim C3 (evaluation at the failing input): the uncomposed bound `add`,
called with `5`, returns the capability object for `{count: 5}` (second
conjunct); but the same call through the composed capability object throws
(first conjunct).  The composable path wraps each rewritten operation as
`(...args) => fn(currentInstance, ...args, smartPreviousMethod)` and then
passes that wrapper through `provideTo(currentInstance)`, whose binding
prepends `currentInstance` to the arguments once more — so the composed
operation runs as `fn(cap, cap, 5, continuation)`: its `prevAdd` parameter is
bound to `5`, and `prevAdd(s, n)` is a TypeError, surfaced wrapped in the
compose/makeWith boundaries.  The composed and uncomposed capability objects
are therefore not behaviourally identical at this input. -/
theorem claim_C3_eval :
    invokeApi interpC 9 capComposedAdd "add" [.num 5] =
      .error (.layered "makeWith" ("Method failed: " ++ "add")
        (some (.layered "compose"
          ("Composed method failed during execution: " ++ "add")
          (some (.typeError "value is not a function")))))
    ∧ invokeApi interpC 9 capAdd0 "add" [.num 5] =
        .ok (.apiV (bindApi (.objV [("count", .num 5)]) addEntries true)) :=
  ⟨rfl, rfl⟩

/-- Claim C4: an accepted (non-composable) layer produces the union of the
previous capability object's entries and the newly bound layer entries, the
newly bound names taking precedence (first conjunct); a layer operation is
bound against the whole prior capability object — the bound entry's subject
is `apiV current`, not the original state (second conjunct).  Concretely, a
later layer's `get` shadows the base `get` (only the later definition runs),
and a name the new layer does not define is the very same bound entry and
behaves exactly as before (remaining conjuncts). -/
theorem claim_C4 :
    (∀ (κ : Type) (current : Api κ) (t : TableV κ) (k : String),
       t.composable = false →
       (layerStepTable current t).lookup k =
         match (bindApi (.apiV current) t.entries t.chainable).lookup k with
         | some c => some c
         | none => current.lookup k)
    ∧ (∀ (κ : Type) (current : Api κ) (t : TableV κ) (k : String) (f : Mth κ),
       t.composable = false → t.chainable = false →
       alookup k t.entries = some f → k ≠ chainableMarker →
       (layerStepTable current t).lookup k =
         some (.boundReader (.apiV current) k f))
    ∧ invokeApi interpC 3
        (layerStepTable (bindApi st0 [("get", Mth.code OpC.getA),
            ("other", Mth.code OpC.getCount)] false)
          ⟨[("get", Mth.code OpC.getB)], false, false⟩) "get" [] = .ok (.str "B")
    ∧ (layerStepTable (bindApi st0 [("get", Mth.code OpC.getA),
            ("other", Mth.code OpC.getCount)] false)
          ⟨[("get", Mth.code OpC.getB)], false, false⟩).lookup "other" =
        (bindApi st0 [("get", Mth.code OpC.getA),
            ("other", Mth.code OpC.getCount)] false).lookup "other"
    ∧ invokeApi interpC 3
        (layerStepTable (bindApi st0 [("get", Mth.code OpC.getA),
            ("other", Mth.code OpC.getCount)] false)
          ⟨[("get", Mth.code OpC.getB)], false, false⟩) "other" [] =
        invokeApi interpC 3 (bindApi st0 [("get", Mth.code OpC.getA),
            ("other", Mth.code OpC.getCount)] false) "other" [] := by
  refine ⟨?_, ?_, rfl, rfl, rfl⟩
  · intro κ current t k hcomp
    unfold layerStepTable
    rw [hcomp]
    simp only [Bool.false_eq_true, if_false]
    exact mergeApis_lookup current _ k
  · intro κ current t k f hcomp hch hlook hmark
    unfold layerStepTable
    rw [hcomp]
    simp only [Bool.false_eq_true, if_false]
    rw [mergeApis_lookup, bindApi_lookup, if_neg hmark, hlook, hch]
    rfl

/-- Claim C4 witness: the general conjuncts instantiated at the concrete
shadowing example. -/
theorem claim_C4_witness :
    (layerStepTable (bindApi st0 [("get", Mth.code OpC.getA)] false)
        ⟨[("get", Mth.code OpC.getB)], false, false⟩).lookup "get" =
      some (.boundReader (.apiV (bindApi st0 [("get", Mth.code OpC.getA)] false))
        "get" (Mth.code OpC.getB)) :=
  claim_C4.2.1 OpC (bindApi st0 [("get", Mth.code OpC.getA)] false)
    ⟨[("get", Mth.code OpC.getB)], false, false⟩ "get" (Mth.code OpC.getB)
    rfl rfl rfl (by decide)

/-- Claim C5: composing a name `k` absent from the current capability object
raises nothing at layering time — the layer step succeeds and binds `k`
(first conjunct); invoking the bound operation passes the throwing
continuation as the trailing argument to the operation (second conjunct); the
composition error is raised exactly when that continuation is invoked (third
conjunct). -/
theorem claim_C5 :
    (∀ (κ : Type) (current : Api κ) (entries : List (String × Mth κ))
       (ch : Bool) (k : String) (f : Mth κ),
       alookup k entries = some f →
       k ≠ composableMarker → k ≠ chainableMarker →
       current.lookup k = none →
       (layerStepTable current ⟨entries, ch, true⟩).lookup k =
         some (.boundReader (.apiV current) k
           (.clos (.composedPreNoPrev current k f))))
    ∧ (∀ (κ : Type) (interp : Interp κ) (current : Api κ) (k : String)
         (f : Mth κ) (args : List (Val κ)) (m : Nat),
       applyClosure interp (m + 1 + 1)
           (.boundReader (.apiV current) k
             (.clos (.composedPreNoPrev current k f))) args =
         wrapErr "makeWith" ("Method failed: " ++ k)
           (wrapErr "compose" ("Composed method failed during execution: " ++ k)
             (evalMthWith (fun c1 as1 => applyClosure interp m c1 as1) interp f
               (.apiV current) ((.apiV current :: args) ++ [.closV (.noPrev k)]))))
    ∧ (∀ (κ : Type) (interp : Interp κ) (k : String) (args : List (Val κ))
         (m : Nat),
       applyClosure interp (m + 1) (Closure.noPrev (κ := κ) k) args =
         .error (.layered "compose"
           ("No previous method found to compose with: " ++ k) none)) := by
  refine ⟨?_, ?_, ?_⟩
  · intro κ current entries ch k f hlook hcm hkm hcur
    unfold layerStepTable
    simp only [if_true]
    rw [mergeApis_lookup, bindApi_lookup, if_neg hkm, composeLayer_lookup,
      if_neg hcm, hlook, hcur]
    rfl
  · intro κ interp current k f args m
    rw [applyClosure_boundReader, evalMthWith_clos,
      applyClosure_composedPreNoPrev]
  · intro κ interp k args m
    exact applyClosure_noPrev interp m k args

/-- Claim C5 witness: composing `solo` over a capability object that lacks it:
the layer step binds it, and invoking the injected continuation raises the
composition error. -/
theorem claim_C5_witness :
    (layerStepTable capAdd0 ⟨[("solo", Mth.code OpC.getA)], false, true⟩).lookup
        "solo" =
      some (.boundReader (.apiV capAdd0) "solo"
        (.clos (.composedPreNoPrev capAdd0 "solo" (Mth.code OpC.getA))))
    ∧ applyClosure interpC 1 (Closure.noPrev (κ := OpC) "solo") [] =
        .error (.layered "compose"
          ("No previous method found to compose with: " ++ "solo") none) :=
  ⟨claim_C5.1 OpC capAdd0 [("solo", Mth.code OpC.getA)] false "solo"
      (Mth.code OpC.getA) rfl (by decide) (by decide) rfl,
   claim_C5.2.2 OpC interpC "solo" [] 0⟩

/-- Claim C6: the accumulator called with no argument returns the current
capability object — the terminal transition Accumulating → Finalized carrying
the same capability object — and the builder state machine has no transition
out of the Finalized state: a finalized value is the plain capability object,
not an accumulator, so no input can be accepted through it. -/
theorem claim_C6 :
    ∀ (κ : Type) (a : Api κ) (i : Option (TableV κ)),
      builderStep (.accumulating a) none = some (.ok (.finalized a))
      ∧ builderStep (.finalized a) i = none := by
  intro κ a i
  exact ⟨rfl, rfl⟩

/-- Claim C6 witness: the terminal call and the absence of transitions out of
Finalized, at a concrete capability object. -/
theorem claim_C6_witness :
    builderStep (.accumulating capAdd0) none = some (.ok (.finalized capAdd0))
    ∧ builderStep (.finalized capAdd0) (some composedAddTable) = none :=
  claim_C6 OpC capAdd0 (some composedAddTable)

/-- Every error occurs in its own cause chain (it is the head). -/
theorem mem_causeChain_self (e : Err) : e ∈ e.causeChain := by
  cases e with
  | layered c m o =>
      cases o with
      | some e2 =>
          rw [show Err.causeChain (.layered c m (some e2)) =
                .layered c m (some e2) :: e2.causeChain from rfl]
          exact List.mem_cons_self _ _
      | none => simp [Err.causeChain]
  | typeError s => simp [Err.causeChain]
  | userError s => simp [Err.causeChain]
  | outOfFuel => simp [Err.causeChain]

/-- The non-chainable base table `{boom: (s) => { throw e }}`, parametric in
the error the operation throws. -/
def boomEntries (e : Err) : List (String × Mth OpC) :=
  [("boom", Mth.code (OpC.boomWith e))]

/-- `makeWith({count:0})(boomEntries e)`. -/
def capBoom (e : Err) : Api OpC := bindApi st0 (boomEntries e) false

/-- The composable layer `compose({boom: (...all) => all[all.length-1]()})`:
the composed `boom` invokes the continuation it receives as its trailing
argument. -/
def boomComposedTable : TableV OpC :=
  ⟨[("boom", Mth.code OpC.boomComposed)], false, true⟩

/-- The layered capability object composing over `boom`. -/
def capBoomComposed (e : Err) : Api OpC :=
  layerStepTable (capBoom e) boomComposedTable

/-- Claim C7 counterexample: the previously bound `boom` throws
`userError "original"`; the composed bound operation invokes it through its
continuation, and the error observed by the caller is a `LayeredError`
wrapper stack — not the identical original error object.  (Each boundary on
the path — the previous bound method's catch, the composed wrapper's catch,
and the outer bound method's catch — rewraps with `createError`.) -/
theorem claim_C7_counterexample :
    invokeApi interpC 9 (capBoomComposed (.userError "original")) "boom" [] =
      .error (.layered "makeWith" ("Method failed: " ++ "boom")
        (some (.layered "compose"
          ("Composed method failed during execution: " ++ "boom")
          (some (.layered "makeWith" ("Method failed: " ++ "boom")
            (some (.userError "original")))))))
    ∧ (Err.layered "makeWith" ("Method failed: " ++ "boom")
        (some (.layered "compose"
          ("Composed method failed during execution: " ++ "boom")
          (some (.layered "makeWith" ("Method failed: " ++ "boom")
            (some (.userError "original")))))) ≠ .userError "original") :=
  ⟨rfl, fun h => Err.noConfusion h⟩

/-- Claim C7 amended: an error thrown inside a composed operation's
continuation reaches the caller of the composed bound operation wrapped in
the `LayeredError` boundaries it crossed (previous bound method, composed
wrapper, outer binding), with the original error preserved as the innermost
cause: for every thrown error `e`, the observed error is the explicit
three-deep wrapper and `e` is in its cause chain. -/
theorem claim_C7_amended :
    ∀ (e : Err),
      invokeApi interpC 9 (capBoomComposed e) "boom" [] =
        .error (.layered "makeWith" ("Method failed: " ++ "boom")
          (some (.layered "compose"
            ("Composed method failed during execution: " ++ "boom")
            (some (.layered "makeWith" ("Method failed: " ++ "boom")
              (some e))))))
      ∧ e ∈ Err.causeChain (.layered "makeWith" ("Method failed: " ++ "boom")
          (some (.layered "compose"
            ("Composed method failed during execution: " ++ "boom")
            (some (.layered "makeWith" ("Method failed: " ++ "boom")
              (some e)))))) := by
  intro e
  refine ⟨rfl, ?_⟩
  show e ∈ Err.layered "makeWith" ("Method failed: " ++ "boom") _ ::
    Err.layered "compose" ("Composed method failed during execution: " ++ "boom")
      _ :: Err.layered "makeWith" ("Method failed: " ++ "boom") (some e) ::
    Err.causeChain e
  exact List.mem_cons_of_mem _ (List.mem_cons_of_mem _
    (List.mem_cons_of_mem _ (mem_causeChain_self e)))

/-- Claim C7 amended, instantiated at the concrete error
`userError "original"`. -/
theorem claim_C7_witness :
    invokeApi interpC 9 (capBoomComposed (.userError "original")) "boom" [] =
      .error (.layered "makeWith" ("Method failed: " ++ "boom")
        (some (.layered "compose"
          ("Composed method failed during execution: " ++ "boom")
          (some (.layered "makeWith" ("Method failed: " ++ "boom")
            (some (.userError "original"))))))) :=
  (claim_C7_amended (.userError "original")).1

/-- Claim C8: a function layer is invoked with the current capability object
and its return value, once validated, is the table bound for the layer
(second conjunct); the accumulator raises an error on a function layer if and
only if the function is not unary (in the sense of `isLayerFunction`:
declared arity one, or a rest-parameter signature) or its outcome is not an
object of functions (first conjunct); an object of functions means every
value under a non-reserved key is a function (third conjunct — the reserved
chainable-marker key stores the mutation tag, not an operation). -/
theorem claim_C8 :
    ∀ (A : Type) (current : A) (f : LayerFn A),
      ((∃ e, acceptFunctionLayer current f = .error e) ↔
        ¬(isUnaryLayer f = true ∧ ∃ es, f.body current = .ok (.obj es) ∧
           validateMethodsM es = .ok ()))
      ∧ (∀ es, acceptFunctionLayer current f = .ok es →
          f.body current = .ok (.obj es))
      ∧ (∀ es, validateMethodsM es = .ok () ↔
          ∀ p ∈ es, p.1 ≠ chainableMarker → p.2 ≠ JsProp.notFn) := by
  intro A current f
  refine ⟨?_, ?_, fun es => validateMethodsM_ok_iff es⟩
  · cases hu : isUnaryLayer f with
    | false => simp [acceptFunctionLayer, hu]
    | true =>
        cases hb : f.body current with
        | error e => simp [acceptFunctionLayer, hu, hb]
        | ok r =>
            cases r with
            | nonObject => simp [acceptFunctionLayer, hu, hb]
            | obj es =>
                cases hv : validateMethodsM es with
                | error e2 =>
                    simp only [acceptFunctionLayer, hu, hb, hv]
                    constructor
                    · intro _
                      rintro ⟨-, es2, hes2, hval2⟩
                      obtain rfl : es = es2 := RawReturn.obj.inj (Except.ok.inj hes2)
                      rw [hv] at hval2
                      exact Except.noConfusion hval2
                    · intro _
                      exact ⟨_, rfl⟩
                | ok u =>
                    cases u
                    simp [acceptFunctionLayer, hu, hb, hv]
  · intro es hok
    cases hu : isUnaryLayer f with
    | false => simp [acceptFunctionLayer, hu] at hok
    | true =>
        cases hb : f.body current with
        | error e => simp [acceptFunctionLayer, hu, hb] at hok
        | ok r =>
            cases r with
            | nonObject => simp [acceptFunctionLayer, hu, hb] at hok
            | obj es2 =>
                cases hv : validateMethodsM es2 with
                | error e2 => simp [acceptFunctionLayer, hu, hb, hv] at hok
                | ok u =>
                    cases u
                    simp only [acceptFunctionLayer, hu, hb, hv] at hok
                    simp at hok
                    subst hok
                    rfl

/-- A concrete unary reflective layer returning a valid methods object. -/
def witnessLayerFn : LayerFn Nat :=
  ⟨1, false, fun _ => .ok (.obj [("get", JsProp.fn "get")])⟩

/-- Claim C8 witness: the accepted table of a unary layer function returning a
valid methods object is exactly what the function returned, with no error
raised. -/
theorem claim_C8_witness :
    witnessLayerFn.body 0 = .ok (.obj [("get", JsProp.fn "get")]) :=
  (claim_C8 Nat 0 witnessLayerFn).2.1 [("get", JsProp.fn "get")] rfl

/-- `validateMethods` fails exactly when some value under a non-reserved key
is not a function. -/
theorem validateMethodsM_error_iff (es : List (String × JsProp)) :
    (∃ e, validateMethodsM es = .error e) ↔
      ∃ p ∈ es, p.1 ≠ chainableMarker ∧ p.2 = JsProp.notFn := by
  rw [except_error_iff_not_ok]
  rw [show (∃ a, validateMethodsM es = .ok a) ↔ validateMethodsM es = .ok ()
      from ⟨fun ⟨a, h⟩ => by cases a; exact h, fun h => ⟨(), h⟩⟩]
  rw [validateMethodsM_ok_iff]
  constructor
  · intro h
    push_neg at h
    obtain ⟨p, hp, hm, hf⟩ := h
    exact ⟨p, hp, hm, hf⟩
  · rintro ⟨p, hp, hm, hf⟩ hall
    exact (hall p hp hm) hf

/-- Off the object-form path, `make` runs the array-form loop. -/
theorem makeM_array_eq (args : List JsArg) (hform : isObjectForm args = false)
    (hne : args ≠ []) : makeM args = makeArrayM args [] [] := by
  match args with
  | [] => exact absurd rfl hne
  | [JsArg.objArg es] => simp [isObjectForm] at hform
  | [JsArg.fnArg n] => rfl
  | [JsArg.arrArg] => rfl
  | [JsArg.nullArg] => rfl
  | [JsArg.primArg] => rfl
  | a :: b :: rest => cases a <;> rfl

/-- The array-form path errors exactly on a non-function argument, a blank
function name, or a duplicate name. -/
theorem makeM_array_error_iff (args : List JsArg)
    (hform : isObjectForm args = false) (hne : args ≠ []) :
    (∃ e, makeM args = .error e) ↔
      ((∃ a ∈ args, ∀ n, a ≠ JsArg.fnArg n)
       ∨ (∃ n, JsArg.fnArg n ∈ args ∧ isBlankName n = true)
       ∨ ¬(argNames args).Nodup) := by
  rw [makeM_array_eq args hform hne, except_error_iff_not_ok,
    makeArrayM_ok_iff]
  simp only [List.not_mem_nil, not_false_iff, implies_true, and_true]
  rw [not_and_or, not_and_or]
  apply or_congr
  · constructor
    · intro h; push_neg at h; exact h
    · intro h; push_neg; exact h
  · apply or_congr
    · constructor
      · intro h; push_neg at h; simpa using h
      · intro h; push_neg; simpa using h
    · exact Iff.rfl

/-- Reduction of the error characterization off the object-form path. -/
theorem claim_C9_aux (args : List JsArg) (hform : isObjectForm args = false)
    (hne : args ≠ []) :
    (∃ e, makeM args = .error e) ↔
      (args = []
       ∨ (∃ es, args = [JsArg.objArg es] ∧
           ∃ p ∈ es, p.1 ≠ chainableMarker ∧ p.2 = JsProp.notFn)
       ∨ (isObjectForm args = false ∧ args ≠ [] ∧
           ((∃ a ∈ args, ∀ n, a ≠ JsArg.fnArg n)
            ∨ (∃ n, JsArg.fnArg n ∈ args ∧ isBlankName n = true)
            ∨ ¬(argNames args).Nodup))) := by
  rw [makeM_array_error_iff args hform hne]
  constructor
  · intro h; exact Or.inr (Or.inr ⟨hform, hne, h⟩)
  · rintro (h | ⟨es, h, -⟩ | ⟨-, -, h⟩)
    · exact absurd h hne
    · rw [h] at hform; simp [isObjectForm] at hform
    · exact h

/-- Claim C9: `make` raises an error exactly when called with no arguments,
or — in object form — some value under a non-reserved key is not a function
(the reserved chainable-marker key stores the tag, not an operation), or — in
array form — some argument is not a function, some function's name is blank,
or two functions share a name (first conjunct; the no-argument case raises
the empty-input error of the second conjunct).  Otherwise it returns the
canonical table: the object's own entries in object form (third conjunct),
the functions keyed by their names, in order, in array form (fourth
conjunct).  The model is a pure function: `make` has no effect beyond its
result. -/
theorem claim_C9 :
    ∀ (args : List JsArg),
      ((∃ e, makeM args = .error e) ↔
        (args = []
         ∨ (∃ es, args = [JsArg.objArg es] ∧
             ∃ p ∈ es, p.1 ≠ chainableMarker ∧ p.2 = JsProp.notFn)
         ∨ (isObjectForm args = false ∧ args ≠ [] ∧
             ((∃ a ∈ args, ∀ n, a ≠ JsArg.fnArg n)
              ∨ (∃ n, JsArg.fnArg n ∈ args ∧ isBlankName n = true)
              ∨ ¬(argNames args).Nodup))))
      ∧ makeM [] =
          .error (.layered "make" "At least one argument must be provided" none)
      ∧ (∀ es, args = [JsArg.objArg es] → validateMethodsM es = .ok () →
          makeM args = .ok es)
      ∧ (∀ m, isObjectForm args = false → makeM args = .ok m →
          m = argTable args) := by
  intro args
  refine ⟨?_, rfl, ?_, ?_⟩
  · rcases args with _ | ⟨a, rest⟩
    · constructor
      · intro _; exact Or.inl rfl
      · intro _; exact ⟨_, rfl⟩
    · rcases rest with _ | ⟨b, rest2⟩
      · cases a with
        | objArg es =>
            constructor
            · intro h
              refine Or.inr (Or.inl ⟨es, rfl, ?_⟩)
              obtain ⟨e, he⟩ := h
              cases hv : validateMethodsM es with
              | error e2 => exact (validateMethodsM_error_iff es).mp ⟨e2, hv⟩
              | ok u =>
                  cases u
                  rw [show makeM [JsArg.objArg es] = .ok es from by
                    simp [makeM, hv]] at he
                  exact Except.noConfusion he
            · intro h
              rcases h with h | h | h
              · exact List.noConfusion h
              · obtain ⟨es2, heq, hbad⟩ := h
                injection heq with h1 h2
                obtain rfl : es = es2 := JsArg.objArg.inj h1
                obtain ⟨e2, hv⟩ := (validateMethodsM_error_iff es).mpr hbad
                exact ⟨.layered "make" "Object validation failed" (some e2),
                  by simp [makeM, hv]⟩
              · obtain ⟨hform, -, -⟩ := h
                simp [isObjectForm] at hform
        | fnArg n => exact claim_C9_aux [JsArg.fnArg n] rfl (by simp)
        | arrArg => exact claim_C9_aux [JsArg.arrArg] rfl (by simp)
        | nullArg => exact claim_C9_aux [JsArg.nullArg] rfl (by simp)
        | primArg => exact claim_C9_aux [JsArg.primArg] rfl (by simp)
      · exact claim_C9_aux (a :: b :: rest2) (by cases a <;> rfl) (by simp)
  · intro es h hval
    subst h
    simp [makeM, hval]
  · intro m hform hok
    rcases args with _ | ⟨a, rest⟩
    · simp [makeM] at hok
    · have hne : (a :: rest) ≠ [] := by simp
      rw [makeM_array_eq _ hform hne] at hok
      have := makeArrayM_ok_val _ [] [] m hok
      simpa using this

/-- Claim C9 witness: the array form at two named functions builds the
name-keyed table; the object form returns the entries. -/
theorem claim_C9_witness :
    makeM [JsArg.objArg [("add", JsProp.fn "add")]] =
        .ok [("add", JsProp.fn "add")]
    ∧ ([("mul", JsProp.fn "mul")] : List (String × JsProp)) =
        argTable [JsArg.fnArg "mul"] :=
  ⟨(claim_C9 [JsArg.objArg [("add", JsProp.fn "add")]]).2.2.1
      [("add", JsProp.fn "add")] rfl rfl,
   (claim_C9 [JsArg.fnArg "mul"]).2.2.2 [("mul", JsProp.fn "mul")] rfl rfl⟩

/-- After any construction, the built capability object is cached under its
(state identity, table identity) pair. -/
theorem makeWithM_caches (st : CacheState) (sid tid : Nat) :
    cacheLookup ((makeWithM sid tid st).2) sid tid =
      some ((makeWithM sid tid st).1) := by
  unfold makeWithM getCachedApiM
  cases h1 : alookup sid st.outer with
  | none => simp [cacheLookup, alookup]
  | some inner =>
      cases h2 : alookup tid inner with
      | none => simp [cacheLookup, alookup, h2]
      | some b => simp [cacheLookup, alookup, h1, h2]

/-- Claim C10: capability-object construction is memoized by the identity
pair (state, table).  A cached pair is returned as-is, untouched (second
conjunct); hence binding the same pair twice returns the identical capability
object and leaves the cache unchanged (first conjunct); and a chainable
method whose operation returns a state identical to one already bound with
the same table returns the very same capability object, not a fresh one
(third conjunct). -/
theorem claim_C10 :
    (∀ (st : CacheState) (sid tid : Nat),
       makeWithM sid tid ((makeWithM sid tid st).2) = makeWithM sid tid st)
    ∧ (∀ (st : CacheState) (sid tid a : Nat),
       cacheLookup st sid tid = some a → makeWithM sid tid st = (a, st))
    ∧ (∀ (st : CacheState) (newSid tid a : Nat),
       cacheLookup st newSid tid = some a →
         invokeChainableM newSid tid st = (a, st)) := by
  have key : ∀ (st : CacheState) (sid tid a : Nat),
      cacheLookup st sid tid = some a → makeWithM sid tid st = (a, st) := by
    intro st sid tid a h
    unfold cacheLookup at h
    unfold makeWithM getCachedApiM
    cases h1 : alookup sid st.outer with
    | none => simp only [h1] at h; exact absurd h (by simp)
    | some inner =>
        simp only [h1] at h ⊢
        cases h2 : alookup tid inner with
        | none => simp only [h2] at h; exact absurd h (by simp)
        | some b =>
            simp only [h2] at h ⊢
            obtain rfl : b = a := Option.some.inj h
            rfl
  refine ⟨?_, key, fun st newSid tid a h => key st newSid tid a h⟩
  intro st sid tid
  rw [key _ sid tid _ (makeWithM_caches st sid tid)]

/-- Claim C10 witness: with `(3, 4) ↦ 7` cached, constructing for state `3`
and table `4` returns capability object `7` with the cache untouched; and so
does a chainable rebind whose operation returned state `3`. -/
theorem claim_C10_witness :
    makeWithM 3 4 ⟨[(3, [(4, 7)])], 8⟩ = (7, ⟨[(3, [(4, 7)])], 8⟩)
    ∧ invokeChainableM 3 4 ⟨[(3, [(4, 7)])], 8⟩ = (7, ⟨[(3, [(4, 7)])], 8⟩) :=
  ⟨claim_C10.2.1 ⟨[(3, [(4, 7)])], 8⟩ 3 4 7 rfl,
   claim_C10.2.2 ⟨[(3, [(4, 7)])], 8⟩ 3 4 7 rfl⟩
